import Mathlib

/-!
Shallow embedding of the Raft3D replicated store (packages `models` and
`store` of the repository): the data model, the command validators, the
FSM command application, and the snapshot/persist/restore pipeline.

Modelling conventions:
* Go maps `map[string]T` are embedded as association lists `SMap T`
  (`List (String × T)`); `smapLookup` is map indexing and `smapInsert`
  is map assignment (replace the binding if the key is present,
  append otherwise).  Go map indexing of a missing key yields the zero
  value, embedded with `Option.getD`.
* Go string-backed enum types (`CommandType`, `FilamentType`,
  `PrintJobStatus`) are embedded as `String` with named constants,
  because the code converts arbitrary strings into them.
* `time.Time` values are embedded as `Int` ticks; the wall-clock
  reading `time.Now()` performed inside `Apply` is made explicit as a
  `now : Int` argument threaded into the apply functions.
* JSON texts are embedded as a `Json` value tree; `encoding/json`
  marshalling and unmarshalling of the repository structs are embedded
  as explicit encoders and field-lenient decoders (absent field keeps
  the zero value, wrongly-typed field is an error, unknown fields are
  ignored), matching the observable behaviour of `encoding/json` on
  these struct types.
-/

/-- Association-list embedding of a Go `map[string]T`. -/
abbrev SMap (α : Type) : Type := List (String × α)

/-- Go map indexing `m[k]` (the `value, ok` form): first binding wins. -/
def smapLookup {α : Type} : SMap α → String → Option α
  | [], _ => none
  | (k', v) :: rest, k => if k' = k then some v else smapLookup rest k

/-- Go map assignment `m[k] = v`: replace the binding if present, else append. -/
def smapInsert {α : Type} : SMap α → String → α → SMap α
  | [], k, v => [(k, v)]
  | (k', v') :: rest, k, v =>
      if k' = k then (k, v) :: rest else (k', v') :: smapInsert rest k v

/-- JSON value trees, standing for the byte strings exchanged with
`encoding/json` (numbers are restricted to the integers this program uses). -/
inductive Json : Type
  | str : String → Json
  | num : Int → Json
  | obj : List (String × Json) → Json
  | arr : List Json → Json

/-- Command type constant `models.CreatePrinter`. -/
def CreatePrinterType : String := "CREATE_PRINTER"

/-- Command type constant `models.CreateFilament`. -/
def CreateFilamentType : String := "CREATE_FILAMENT"

/-- Command type constant `models.CreatePrintJob`. -/
def CreatePrintJobType : String := "CREATE_PRINT_JOB"

/-- Command type constant `models.UpdatePrintJob`. -/
def UpdatePrintJobType : String := "UPDATE_PRINT_JOB"

/-- Status constant `models.Queued`. -/
def Queued : String := "Queued"

/-- Status constant `models.Running`. -/
def Running : String := "Running"

/-- Status constant `models.Done`. -/
def Done : String := "Done"

/-- Status constant `models.Canceled`. -/
def Canceled : String := "Canceled"

/-- `models.Command`: the envelope decoded from a Raft log entry; `data`
is the raw JSON payload (`json.RawMessage`). -/
structure Command : Type where
  type : String
  data : Json
  id : String
  status : String

/-- `models.Printer`. -/
structure Printer : Type where
  ID : String
  Company : String
  Model : String
deriving DecidableEq

/-- `models.Filament` (the `Type` field is the string-backed `FilamentType`). -/
structure Filament : Type where
  ID : String
  FType : String
  Color : String
  TotalWeightInGrams : Int
  RemainingWeightInGrams : Int
deriving DecidableEq

/-- `models.PrintJob` (`Status` is the string-backed `PrintJobStatus`,
timestamps are `Int` ticks). -/
structure PrintJob : Type where
  ID : String
  PrinterID : String
  FilamentID : String
  Filepath : String
  PrintWeightInGrams : Int
  Status : String
  CreatedAt : Int
  UpdatedAt : Int
deriving DecidableEq

/-- `models.Store`: the complete replicated state. -/
structure Store : Type where
  Printers : SMap Printer
  Filaments : SMap Filament
  PrintJobs : SMap PrintJob
  NextID : SMap Int
deriving DecidableEq

/-- `models.NewStore`. -/
def NewStore : Store :=
  { Printers := []
    Filaments := []
    PrintJobs := []
    NextID := [("printer", 1), ("filament", 1), ("printjob", 1)] }

/-- `Store.GetNextID`: read the counter (zero when absent, as in Go),
increment it in the store, and render the old value in decimal. -/
def Store.GetNextID (s : Store) (entityType : String) : String × Store :=
  let id := (smapLookup s.NextID entityType).getD 0
  (toString id, { s with NextID := smapInsert s.NextID entityType (id + 1) })

/-- `models.ValidatePrintJobStatusTransition`. -/
def ValidatePrintJobStatusTransition (currentStatus newStatus : String) :
    Except String Unit :=
  if currentStatus = Queued then
    if newStatus ≠ Running ∧ newStatus ≠ Canceled then
      .error "queued jobs can only transition to running or canceled"
    else .ok ()
  else if currentStatus = Running then
    if newStatus ≠ Done ∧ newStatus ≠ Canceled then
      .error "running jobs can only transition to done or canceled"
    else .ok ()
  else if currentStatus = Done ∨ currentStatus = Canceled then
    .error "jobs in done or canceled state cannot transition to any other state"
  else .error ("unknown status: " ++ currentStatus)

/-- The weight a single job contributes to the loop body of
`CheckFilamentAvailability` for filament id `fid` (its print weight when it
references `fid` and is Queued or Running, zero otherwise). -/
def activeContribution (fid : String) (pj : PrintJob) : Int :=
  if pj.FilamentID = fid ∧ (pj.Status = Queued ∨ pj.Status = Running) then
    pj.PrintWeightInGrams
  else 0

/-- The loop of `Store.CheckFilamentAvailability`: total print weight of
Queued/Running jobs referencing filament id `fid`. -/
def activeWeight (jobs : SMap PrintJob) (fid : String) : Int :=
  (jobs.map (fun p => activeContribution fid p.2)).sum

/-- `Store.CheckFilamentAvailability`. -/
def Store.CheckFilamentAvailability (s : Store) (filamentID : String)
    (printWeight : Int) : Except String Unit :=
  match smapLookup s.Filaments filamentID with
  | none => .error ("filament with ID " ++ filamentID ++ " does not exist")
  | some filament =>
      let weightUsedByOtherJobs := activeWeight s.PrintJobs filamentID
      let remainingWeight := filament.RemainingWeightInGrams - weightUsedByOtherJobs
      if remainingWeight < printWeight then
        .error ("not enough filament: needs " ++ toString printWeight ++
          " grams but only " ++ toString remainingWeight ++ " grams available")
      else .ok ()

/-- Field lookup inside a decoded JSON object (first binding wins). -/
def getField (fields : List (String × Json)) (k : String) : Option Json :=
  match fields with
  | [] => none
  | (k', v) :: rest => if k' = k then some v else getField rest k

/-- Decode a string-typed struct field: absent keeps the zero value `""`,
a non-string value is a type error, as with `encoding/json`. -/
def decStrField (fields : List (String × Json)) (k : String) :
    Except String String :=
  match getField fields k with
  | none => .ok ""
  | some (.str s) => .ok s
  | some _ => .error ("json: cannot unmarshal into string field " ++ k)

/-- Decode an int-typed struct field: absent keeps the zero value `0`. -/
def decIntField (fields : List (String × Json)) (k : String) :
    Except String Int :=
  match getField fields k with
  | none => .ok 0
  | some (.num n) => .ok n
  | some _ => .error ("json: cannot unmarshal into int field " ++ k)

/-- Unmarshal a `models.Printer` from its JSON object. -/
def decodePrinter (j : Json) : Except String Printer :=
  match j with
  | .obj fields => do
      let id ← decStrField fields "id"
      let company ← decStrField fields "company"
      let model ← decStrField fields "model"
      .ok { ID := id, Company := company, Model := model }
  | _ => .error "json: cannot unmarshal into Printer"

/-- Unmarshal a `models.Filament` from its JSON object. -/
def decodeFilament (j : Json) : Except String Filament :=
  match j with
  | .obj fields => do
      let id ← decStrField fields "id"
      let ftype ← decStrField fields "type"
      let color ← decStrField fields "color"
      let total ← decIntField fields "total_weight_in_grams"
      let remaining ← decIntField fields "remaining_weight_in_grams"
      .ok { ID := id, FType := ftype, Color := color,
            TotalWeightInGrams := total, RemainingWeightInGrams := remaining }
  | _ => .error "json: cannot unmarshal into Filament"

/-- Unmarshal a `models.PrintJob` from its JSON object. -/
def decodePrintJob (j : Json) : Except String PrintJob :=
  match j with
  | .obj fields => do
      let id ← decStrField fields "id"
      let printerID ← decStrField fields "printer_id"
      let filamentID ← decStrField fields "filament_id"
      let filepath ← decStrField fields "filepath"
      let weight ← decIntField fields "print_weight_in_grams"
      let status ← decStrField fields "status"
      let createdAt ← decIntField fields "created_at"
      let updatedAt ← decIntField fields "updated_at"
      .ok { ID := id, PrinterID := printerID, FilamentID := filamentID,
            Filepath := filepath, PrintWeightInGrams := weight,
            Status := status, CreatedAt := createdAt, UpdatedAt := updatedAt }
  | _ => .error "json: cannot unmarshal into PrintJob"

/-- Marshal a `models.Printer` (field order follows the struct). -/
def encodePrinter (p : Printer) : Json :=
  .obj [("id", .str p.ID), ("company", .str p.Company), ("model", .str p.Model)]

/-- Marshal a `models.Filament`. -/
def encodeFilament (f : Filament) : Json :=
  .obj [("id", .str f.ID), ("type", .str f.FType), ("color", .str f.Color),
        ("total_weight_in_grams", .num f.TotalWeightInGrams),
        ("remaining_weight_in_grams", .num f.RemainingWeightInGrams)]

/-- Marshal a `models.PrintJob`. -/
def encodePrintJob (p : PrintJob) : Json :=
  .obj [("id", .str p.ID), ("printer_id", .str p.PrinterID),
        ("filament_id", .str p.FilamentID), ("filepath", .str p.Filepath),
        ("print_weight_in_grams", .num p.PrintWeightInGrams),
        ("status", .str p.Status), ("created_at", .num p.CreatedAt),
        ("updated_at", .num p.UpdatedAt)]

/-- Marshal a `map[string]T` as a JSON object, one member per binding. -/
def encodeSMap {α : Type} (enc : α → Json) (m : SMap α) : Json :=
  .obj (m.map (fun p => (p.1, enc p.2)))

/-- Unmarshal the members of a JSON object into map bindings, in order. -/
def decodeEntries {α : Type} (dec : Json → Except String α) :
    List (String × Json) → Except String (SMap α)
  | [] => .ok []
  | (k, j) :: rest => do
      let v ← dec j
      let r ← decodeEntries dec rest
      .ok ((k, v) :: r)

/-- Unmarshal a `map[string]T` from a JSON object. -/
def decodeSMap {α : Type} (dec : Json → Except String α) (j : Json) :
    Except String (SMap α) :=
  match j with
  | .obj entries => decodeEntries dec entries
  | _ => .error "json: cannot unmarshal into map"

/-- Unmarshal an `int` map value. -/
def decodeInt (j : Json) : Except String Int :=
  match j with
  | .num n => .ok n
  | _ => .error "json: cannot unmarshal into int"

/-- Marshal a `models.Store` (`json.Marshal` in `fsmSnapshot.Persist`). -/
def encodeStore (s : Store) : Json :=
  .obj [("printers", encodeSMap encodePrinter s.Printers),
        ("filaments", encodeSMap encodeFilament s.Filaments),
        ("print_jobs", encodeSMap encodePrintJob s.PrintJobs),
        ("next_id", encodeSMap Json.num s.NextID)]

/-- Unmarshal a `models.Store` (`json.Unmarshal` in `FSM.Restore`); an
absent field leaves the corresponding map empty (nil), as in Go. -/
def decodeStore (j : Json) : Except String Store :=
  match j with
  | .obj fields => do
      let printers ← match getField fields "printers" with
        | none => .ok []
        | some pj => decodeSMap decodePrinter pj
      let filaments ← match getField fields "filaments" with
        | none => .ok []
        | some fj => decodeSMap decodeFilament fj
      let printJobs ← match getField fields "print_jobs" with
        | none => .ok []
        | some jj => decodeSMap decodePrintJob jj
      let nextID ← match getField fields "next_id" with
        | none => .ok []
        | some nj => decodeSMap decodeInt nj
      .ok { Printers := printers, Filaments := filaments,
            PrintJobs := printJobs, NextID := nextID }
  | _ => .error "json: cannot unmarshal into Store"

/-- The value `FSM.Apply` returns: the created or updated entity, or
the error value of a failed command. -/
inductive ApplyResult : Type
  | printer : Printer → ApplyResult
  | filament : Filament → ApplyResult
  | printJob : PrintJob → ApplyResult
  | err : String → ApplyResult
deriving DecidableEq

/-- Whether an `FSM.Apply` result is an error value. -/
def ApplyResult.isErr : ApplyResult → Bool
  | .err _ => true
  | _ => false

/-- `FSM.applyCreatePrinter`: decode the payload, allocate an id when the
payload carries none, store the printer. -/
def applyCreatePrinter (s : Store) (data : Json) : ApplyResult × Store :=
  match decodePrinter data with
  | .error e => (.err e, s)
  | .ok printer =>
      let (printer, s) :=
        if printer.ID = "" then
          let (nid, s') := s.GetNextID "printer"
          ({ printer with ID := nid }, s')
        else (printer, s)
      (.printer printer,
       { s with Printers := smapInsert s.Printers printer.ID printer })

/-- `FSM.applyCreateFilament`: decode, allocate an id when empty, default
the remaining weight to the total weight when it is zero, store. -/
def applyCreateFilament (s : Store) (data : Json) : ApplyResult × Store :=
  match decodeFilament data with
  | .error e => (.err e, s)
  | .ok filament =>
      let (filament, s) :=
        if filament.ID = "" then
          let (nid, s') := s.GetNextID "filament"
          ({ filament with ID := nid }, s')
        else (filament, s)
      let filament :=
        if filament.RemainingWeightInGrams = 0 then
          { filament with RemainingWeightInGrams := filament.TotalWeightInGrams }
        else filament
      (.filament filament,
       { s with Filaments := smapInsert s.Filaments filament.ID filament })

/-- `FSM.applyCreatePrintJob`: decode, require the printer and filament to
exist, run the filament-budget check, allocate an id when empty, force the
status to Queued, stamp both timestamps from the wall clock (`now`), store. -/
def applyCreatePrintJob (s : Store) (data : Json) (now : Int) :
    ApplyResult × Store :=
  match decodePrintJob data with
  | .error e => (.err e, s)
  | .ok printJob =>
      match smapLookup s.Printers printJob.PrinterID with
      | none =>
          (.err ("printer with ID " ++ printJob.PrinterID ++ " does not exist"), s)
      | some _ =>
          match smapLookup s.Filaments printJob.FilamentID with
          | none =>
              (.err ("filament with ID " ++ printJob.FilamentID ++ " does not exist"), s)
          | some _ =>
              match s.CheckFilamentAvailability printJob.FilamentID
                  printJob.PrintWeightInGrams with
              | .error e => (.err e, s)
              | .ok _ =>
                  let (printJob, s) :=
                    if printJob.ID = "" then
                      let (nid, s') := s.GetNextID "printjob"
                      ({ printJob with ID := nid }, s')
                    else (printJob, s)
                  let printJob :=
                    { printJob with Status := Queued, CreatedAt := now,
                                    UpdatedAt := now }
                  (.printJob printJob,
                   { s with PrintJobs := smapInsert s.PrintJobs printJob.ID printJob })

/-- `FSM.applyUpdatePrintJob`: look the job up, validate the transition,
set the new status and refresh `UpdatedAt` from the wall clock; on a
transition to Done subtract the print weight from the referenced filament,
clamping at zero (a missing filament reads as the zero value, as in Go). -/
def applyUpdatePrintJob (s : Store) (id status : String) (now : Int) :
    ApplyResult × Store :=
  match smapLookup s.PrintJobs id with
  | none => (.err ("print job with ID " ++ id ++ " does not exist"), s)
  | some printJob =>
      match ValidatePrintJobStatusTransition printJob.Status status with
      | .error e => (.err e, s)
      | .ok _ =>
          let printJob := { printJob with Status := status, UpdatedAt := now }
          let s :=
            if status = Done then
              let filament := (smapLookup s.Filaments printJob.FilamentID).getD
                { ID := "", FType := "", Color := "",
                  TotalWeightInGrams := 0, RemainingWeightInGrams := 0 }
              let r := filament.RemainingWeightInGrams - printJob.PrintWeightInGrams
              let filament :=
                { filament with RemainingWeightInGrams := if r < 0 then 0 else r }
              { s with Filaments := smapInsert s.Filaments printJob.FilamentID filament }
            else s
          (.printJob printJob,
           { s with PrintJobs := smapInsert s.PrintJobs id printJob })

/-- `FSM.Apply`: dispatch a decoded command to the four apply functions;
`now` is the wall-clock value `time.Now()` would read during this call. -/
def FSM.Apply (s : Store) (cmd : Command) (now : Int) : ApplyResult × Store :=
  if cmd.type = CreatePrinterType then applyCreatePrinter s cmd.data
  else if cmd.type = CreateFilamentType then applyCreateFilament s cmd.data
  else if cmd.type = CreatePrintJobType then applyCreatePrintJob s cmd.data now
  else if cmd.type = UpdatePrintJobType then applyUpdatePrintJob s cmd.id cmd.status now
  else (.err ("unknown command type: " ++ cmd.type), s)

/-- Fold a list of commands (each with its wall-clock reading) through
`FSM.Apply`, keeping the final store. -/
def applyTrace (s : Store) : List (Command × Int) → Store
  | [] => s
  | (cmd, now) :: rest => applyTrace (FSM.Apply s cmd now).2 rest

/-- `FSM.Snapshot`: clone the store under the read lock.  Copying every
binding of each of the four maps into a fresh map is the identity on the
value-semantics embedding. -/
def FSM.Snapshot (s : Store) : Store :=
  { Printers := s.Printers, Filaments := s.Filaments,
    PrintJobs := s.PrintJobs, NextID := s.NextID }

/-- `fsmSnapshot.Persist`: marshal the cloned store and write it to the sink. -/
def fsmSnapshot.Persist (s : Store) : Json :=
  encodeStore s

/-- `FSM.Restore`: read the byte stream, unmarshal a store, install it.
No invariant of the decoded store is checked. -/
def FSM.Restore (data : Json) : Except String Store :=
  decodeStore data

/-- A store reachable in two live nodes: one printer and one filament,
used to exhibit the wall-clock dependence of `FSM.Apply`. -/
def clockStore : Store :=
  { Printers := [("p1", { ID := "p1", Company := "Creality", Model := "Ender 3" })]
    Filaments := [("f1", { ID := "f1", FType := "PLA", Color := "red",
                           TotalWeightInGrams := 100, RemainingWeightInGrams := 100 })]
    PrintJobs := []
    NextID := [("printer", 2), ("filament", 2), ("printjob", 1)] }

/-- A CreatePrintJob command whose applied result depends on the clock. -/
def clockCmd : Command :=
  { type := CreatePrintJobType
    data := Json.obj [("printer_id", .str "p1"), ("filament_id", .str "f1"),
                      ("filepath", .str "a.gcode"),
                      ("print_weight_in_grams", .num 10)]
    id := ""
    status := "" }

/-- A store violating spec invariant I3 (a filament with negative
remaining weight), used against `FSM.Restore`. -/
def badRestoreStore : Store :=
  { Printers := []
    Filaments := [("f1", { ID := "f1", FType := "PLA", Color := "red",
                           TotalWeightInGrams := 100, RemainingWeightInGrams := -5 })]
    PrintJobs := []
    NextID := [] }

/-- Spec invariant I3 as a decidable check: every filament of the store
has nonnegative remaining weight. -/
def storeSatisfiesI3 (s : Store) : Bool :=
  s.Filaments.all (fun p => decide (0 ≤ p.2.RemainingWeightInGrams))

/-- A done job inside a one-job store, for the C2 witness. -/
def doneJob : PrintJob :=
  { ID := "j1", PrinterID := "p1", FilamentID := "f1", Filepath := "a",
    PrintWeightInGrams := 5, Status := Done, CreatedAt := 0, UpdatedAt := 0 }

/-- A store holding only `doneJob`, for the C2 witness. -/
def doneJobStore : Store :=
  { Printers := [], Filaments := [], PrintJobs := [("j1", doneJob)], NextID := [] }

/-- A command of a type the FSM does not know. -/
def unknownCmd : Command := { type := "NOPE", data := .obj [], id := "", status := "" }

/-- The print job as `applyCreatePrintJob` stores it: id allocated when the
payload carries none, status forced to Queued, both timestamps stamped. -/
def storedPrintJob (s : Store) (pj : PrintJob) (now : Int) : PrintJob :=
  { pj with ID := if pj.ID = "" then (s.GetNextID "printjob").1 else pj.ID,
            Status := Queued, CreatedAt := now, UpdatedAt := now }

/-- The print job `clockCmd` decodes to. -/
def clockCmdJob : PrintJob :=
  { ID := "", PrinterID := "p1", FilamentID := "f1", Filepath := "a.gcode",
    PrintWeightInGrams := 10, Status := "", CreatedAt := 0, UpdatedAt := 0 }

/-- The filament stored in `clockStore`. -/
def clockFilament : Filament :=
  { ID := "f1", FType := "PLA", Color := "red",
    TotalWeightInGrams := 100, RemainingWeightInGrams := 100 }

/-- A running job on filament f1, for the C6 witness. -/
def runningJob : PrintJob :=
  { ID := "j1", PrinterID := "p1", FilamentID := "f1", Filepath := "b",
    PrintWeightInGrams := 30, Status := Running, CreatedAt := 0, UpdatedAt := 0 }

/-- The filament of `runningJobStore`. -/
def runningJobFilament : Filament :=
  { ID := "f1", FType := "PETG", Color := "blue",
    TotalWeightInGrams := 100, RemainingWeightInGrams := 100 }

/-- A store holding `runningJob` and its filament, for the C6 witness. -/
def runningJobStore : Store :=
  { Printers := [], Filaments := [("f1", runningJobFilament)],
    PrintJobs := [("j1", runningJob)], NextID := [] }

/-- The map key under which `applyCreatePrinter` will store its decoded
printer in store `s` (the payload id, or the next allocator id when empty);
none when the payload does not decode. -/
def createPrinterStoredID (s : Store) (cmd : Command) : Option String :=
  match decodePrinter cmd.data with
  | .error _ => none
  | .ok p => some (if p.ID = "" then (s.GetNextID "printer").1 else p.ID)

/-- A store with one printer, overwritten by the C9 counterexample. -/
def overwriteStore : Store :=
  { Printers := [("p1", { ID := "p1", Company := "A", Model := "M" })]
    Filaments := [], PrintJobs := [], NextID := [] }

/-- A CreatePrinter command reusing the existing id p1. -/
def overwriteCmd : Command :=
  { type := CreatePrinterType
    data := Json.obj [("id", .str "p1"), ("company", .str "B"), ("model", .str "M")]
    id := "", status := "" }

/-- The remaining weight a CreateFilament payload ends up with: the code
replaces a zero remaining weight by the total weight. -/
def defaultedRemaining (f : Filament) : Int :=
  if f.RemainingWeightInGrams = 0 then f.TotalWeightInGrams
  else f.RemainingWeightInGrams

/-- The two lookup-level facts of claim C8, over the two maps the apply
functions touch: every filament keeps its remaining weight between zero and
its total, and every stored job has nonnegative print weight. -/
def WeightCore (filaments : SMap Filament) (jobs : SMap PrintJob) : Prop :=
  (∀ k fl, smapLookup filaments k = some fl →
    0 ≤ fl.RemainingWeightInGrams ∧
    fl.RemainingWeightInGrams ≤ fl.TotalWeightInGrams) ∧
  (∀ k pj, smapLookup jobs k = some pj → 0 ≤ pj.PrintWeightInGrams)

/-- `WeightCore` of a store. -/
def WeightInv (s : Store) : Prop := WeightCore s.Filaments s.PrintJobs

/-- The per-step payload conditions under which claim C8 is provable:
CreateFilament payloads land between zero and their total after
defaulting, CreatePrintJob payloads carry nonnegative weight. -/
def weightStepOK (s : Store) (cmd : Command) : Bool :=
  if cmd.type = CreateFilamentType then
    match decodeFilament cmd.data with
    | .error _ => true
    | .ok f => decide (0 ≤ defaultedRemaining f ∧
        defaultedRemaining f ≤ f.TotalWeightInGrams)
  else if cmd.type = CreatePrintJobType then
    match decodePrintJob cmd.data with
    | .error _ => true
    | .ok pj => decide (0 ≤ pj.PrintWeightInGrams)
  else true

/-- `weightStepOK` checked along a whole trace. -/
def weightTraceOK (s : Store) : List (Command × Int) → Bool
  | [] => true
  | (cmd, now) :: rest =>
      weightStepOK s cmd && weightTraceOK (FSM.Apply s cmd now).2 rest

/-- A CreateFilament command with no id and no remaining weight: the
allocator assigns id 1 and the remaining weight defaults to the total. -/
def filamentDefaultCmd : Command :=
  { type := CreateFilamentType
    data := Json.obj [("type", .str "PLA"), ("color", .str "red"),
                      ("total_weight_in_grams", .num 100)]
    id := "", status := "" }

/-- A CreateFilament command whose payload carries a negative remaining
weight; the code stores it unchecked. -/
def negativeFilamentCmd : Command :=
  { type := CreateFilamentType
    data := Json.obj [("id", .str "f1"), ("type", .str "PLA"),
                      ("color", .str "red"),
                      ("total_weight_in_grams", .num 100),
                      ("remaining_weight_in_grams", .num (-5))]
    id := "", status := "" }

/-- The facts claim C4 needs, over the two maps the apply functions touch:
all stored jobs have nonnegative weight, every job references a present
filament, and every filament covers the active weight booked against its
key (which is also its id field). -/
def BudgetCore (filaments : SMap Filament) (jobs : SMap PrintJob) : Prop :=
  (∀ p ∈ jobs, 0 ≤ (Prod.snd p).PrintWeightInGrams) ∧
  (∀ p ∈ jobs, (smapLookup filaments (Prod.snd p).FilamentID).isSome = true) ∧
  (∀ k fl, smapLookup filaments k = some fl →
    fl.ID = k ∧ activeWeight jobs k ≤ fl.RemainingWeightInGrams)

/-- `BudgetCore` of a store. -/
def BudgetInv (s : Store) : Prop := BudgetCore s.Filaments s.PrintJobs

/-- The per-step payload conditions under which claim C4 is provable: a
CreateFilament stores under a fresh key with nonnegative defaulted
remaining weight, a CreatePrintJob carries nonnegative weight. -/
def budgetStepOK (s : Store) (cmd : Command) : Bool :=
  if cmd.type = CreateFilamentType then
    match decodeFilament cmd.data with
    | .error _ => true
    | .ok f =>
        decide (smapLookup s.Filaments
            (if f.ID = "" then (s.GetNextID "filament").1 else f.ID) = none ∧
          0 ≤ defaultedRemaining f)
  else if cmd.type = CreatePrintJobType then
    match decodePrintJob cmd.data with
    | .error _ => true
    | .ok pj => decide (0 ≤ pj.PrintWeightInGrams)
  else true

/-- `budgetStepOK` checked along a whole trace. -/
def budgetTraceOK (s : Store) : List (Command × Int) → Bool
  | [] => true
  | (cmd, now) :: rest =>
      budgetStepOK s cmd && budgetTraceOK (FSM.Apply s cmd now).2 rest

/-- A CreatePrinter command with no id, stored by the allocator as id 1. -/
def printerCreateCmd : Command :=
  { type := CreatePrinterType
    data := Json.obj [("company", .str "Creality"), ("model", .str "Ender 3")]
    id := "", status := "" }

/-- A CreatePrintJob command for printer 1 and filament 1, weight 60. -/
def jobCreateCmd : Command :=
  { type := CreatePrintJobType
    data := Json.obj [("printer_id", .str "1"), ("filament_id", .str "1"),
                      ("filepath", .str "x.gcode"),
                      ("print_weight_in_grams", .num 60)]
    id := "", status := "" }

/-- A CreateFilament command with explicit id f1 and 100 gram total. -/
def filamentF1Cmd : Command :=
  { type := CreateFilamentType
    data := Json.obj [("id", .str "f1"), ("type", .str "PLA"),
                      ("color", .str "red"), ("total_weight_in_grams", .num 100)]
    id := "", status := "" }

/-- A CreatePrintJob command for printer 1 and filament f1, weight 60. -/
def jobOnF1Cmd : Command :=
  { type := CreatePrintJobType
    data := Json.obj [("printer_id", .str "1"), ("filament_id", .str "f1"),
                      ("filepath", .str "y.gcode"),
                      ("print_weight_in_grams", .num 60)]
    id := "", status := "" }

/-- A second CreateFilament command reusing id f1 with only 10 grams. -/
def filamentF1SmallCmd : Command :=
  { type := CreateFilamentType
    data := Json.obj [("id", .str "f1"), ("type", .str "PLA"),
                      ("color", .str "red"), ("total_weight_in_grams", .num 10)]
    id := "", status := "" }

theorem smapLookup_insert {α : Type} (m : SMap α) (k k' : String) (v : α) :
    smapLookup (smapInsert m k v) k' =
      if k = k' then some v else smapLookup m k' := by
  induction m with
  | nil => simp [smapInsert, smapLookup]
  | cons p rest ih =>
      obtain ⟨k'', v''⟩ := p
      by_cases h : k'' = k
      · subst h
        by_cases h' : k'' = k' <;> simp [smapInsert, smapLookup, h']
      · by_cases h' : k'' = k'
        · subst h'
          have h2 : ¬ k = k'' := fun hc => h hc.symm
          simp [smapInsert, smapLookup, h, h2]
        · simp [smapInsert, smapLookup, h, h', ih]

theorem mem_smapInsert {α : Type} (m : SMap α) (k : String) (v : α)
    (p : String × α) (hp : p ∈ smapInsert m k v) : p = (k, v) ∨ p ∈ m := by
  induction m with
  | nil =>
      simp [smapInsert] at hp
      exact Or.inl hp
  | cons q rest ih =>
      obtain ⟨k'', v''⟩ := q
      by_cases h : k'' = k
      · subst h
        simp only [smapInsert, if_pos rfl] at hp
        rcases List.mem_cons.mp hp with h1 | h1
        · exact Or.inl h1
        · exact Or.inr (List.mem_cons_of_mem _ h1)
      · simp only [smapInsert, if_neg h] at hp
        rcases List.mem_cons.mp hp with h1 | h1
        · exact Or.inr (h1 ▸ List.mem_cons_self _ _)
        · rcases ih h1 with h2 | h2
          · exact Or.inl h2
          · exact Or.inr (List.mem_cons_of_mem _ h2)

theorem smapLookup_mem {α : Type} (m : SMap α) (k : String) (v : α)
    (h : smapLookup m k = some v) : (k, v) ∈ m := by
  induction m with
  | nil => simp [smapLookup] at h
  | cons p rest ih =>
      obtain ⟨k'', v''⟩ := p
      by_cases hk : k'' = k
      · subst hk
        simp [smapLookup] at h
        subst h
        exact List.mem_cons_self _ _
      · simp only [smapLookup, if_neg hk] at h
        exact List.mem_cons_of_mem _ (ih h)

theorem activeWeight_nil (fid : String) : activeWeight [] fid = 0 := rfl

theorem activeWeight_cons (p : String × PrintJob) (rest : SMap PrintJob)
    (fid : String) :
    activeWeight (p :: rest) fid =
      activeContribution fid p.2 + activeWeight rest fid := by
  simp [activeWeight]

theorem activeWeight_smapInsert (jobs : SMap PrintJob) (k : String)
    (v : PrintJob) (fid : String) :
    activeWeight (smapInsert jobs k v) fid +
      ((smapLookup jobs k).elim 0 (activeContribution fid)) =
    activeWeight jobs fid + activeContribution fid v := by
  induction jobs with
  | nil => simp [smapInsert, smapLookup, activeWeight]
  | cons p rest ih =>
      obtain ⟨k'', v''⟩ := p
      by_cases h : k'' = k
      · rw [show smapInsert ((k'', v'') :: rest) k v = (k, v) :: rest by
              simp [smapInsert, h],
            show smapLookup ((k'', v'') :: rest) k = some v'' by
              simp [smapLookup, h]]
        rw [activeWeight_cons, activeWeight_cons]
        simp only [Option.elim_some]
        ring
      · rw [show smapInsert ((k'', v'') :: rest) k v =
              (k'', v'') :: smapInsert rest k v by simp [smapInsert, h],
            show smapLookup ((k'', v'') :: rest) k = smapLookup rest k by
              simp [smapLookup, h]]
        rw [activeWeight_cons, activeWeight_cons]
        omega

theorem activeWeight_eq_zero (jobs : SMap PrintJob) (fid : String)
    (h : ∀ p ∈ jobs, (Prod.snd p).FilamentID ≠ fid) :
    activeWeight jobs fid = 0 := by
  induction jobs with
  | nil => rfl
  | cons p rest ih =>
      rw [activeWeight_cons]
      have h1 : (Prod.snd p).FilamentID ≠ fid := h p (List.mem_cons_self _ _)
      have h2 : activeContribution fid p.2 = 0 := by
        simp [activeContribution, h1]
      rw [h2, ih (fun q hq => h q (List.mem_cons_of_mem _ hq))]
      ring

theorem decodePrinter_encodePrinter (p : Printer) :
    decodePrinter (encodePrinter p) = .ok p := rfl

theorem decodeFilament_encodeFilament (f : Filament) :
    decodeFilament (encodeFilament f) = .ok f := rfl

theorem decodePrintJob_encodePrintJob (p : PrintJob) :
    decodePrintJob (encodePrintJob p) = .ok p := rfl

theorem decodeInt_num (n : Int) : decodeInt (Json.num n) = .ok n := rfl

theorem decodeEntries_encode {α : Type} (enc : α → Json)
    (dec : Json → Except String α) (h : ∀ x, dec (enc x) = .ok x)
    (m : SMap α) :
    decodeEntries dec (m.map (fun p => (p.1, enc p.2))) = .ok m := by
  induction m with
  | nil => rfl
  | cons p rest ih =>
      simp only [List.map_cons, decodeEntries, h p.2, ih]
      rfl

theorem decodeSMap_encodeSMap {α : Type} (enc : α → Json)
    (dec : Json → Except String α) (h : ∀ x, dec (enc x) = .ok x)
    (m : SMap α) : decodeSMap dec (encodeSMap enc m) = .ok m := by
  simp only [encodeSMap, decodeSMap]
  exact decodeEntries_encode enc dec h m

theorem decodeStore_encodeStore (s : Store) :
    decodeStore (encodeStore s) = .ok s := by
  have hp := decodeSMap_encodeSMap encodePrinter decodePrinter
    decodePrinter_encodePrinter s.Printers
  have hf := decodeSMap_encodeSMap encodeFilament decodeFilament
    decodeFilament_encodeFilament s.Filaments
  have hj := decodeSMap_encodeSMap encodePrintJob decodePrintJob
    decodePrintJob_encodePrintJob s.PrintJobs
  have hn := decodeSMap_encodeSMap Json.num decodeInt decodeInt_num s.NextID
  simp only [encodeStore, decodeStore, getField, if_pos, if_neg,
    String.reduceEq, reduceIte, hp, hf, hj, hn]
  rfl

/-- C5: Snapshot followed by Persist and Restore on a fresh FSM is a round
trip: the decoded store equals the original in all four maps. -/
theorem snapshot_persist_restore_roundtrip (s : Store) :
    FSM.Restore (fsmSnapshot.Persist (FSM.Snapshot s)) = .ok s :=
  decodeStore_encodeStore s

/-- C3: `FSM.Apply` is not a pure function of the pair of store and
command: applying the same CreatePrintJob command to the same store at two
wall-clock readings yields two different stores, because the code stamps
`created_at` and `updated_at` from `time.Now()` inside Apply. -/
theorem apply_depends_on_wall_clock :
    (FSM.Apply clockStore clockCmd 0).2 ≠ (FSM.Apply clockStore clockCmd 1).2 := by
  decide

/-- C7 counterexample: a byte stream that decodes to a store violating
invariant I3 on which Restore nevertheless succeeds, installing the
violating store verbatim. -/
theorem restore_no_invariant_check_counterexample :
    storeSatisfiesI3 badRestoreStore = false ∧
    FSM.Restore (encodeStore badRestoreStore) = .ok badRestoreStore := by
  constructor
  · rfl
  · rfl

/-- C7 amended: Restore verifies nothing about the decoded store; it
succeeds on every byte stream that decodes to a Store and installs the
decoded store verbatim, invariant-violating or not. -/
theorem restore_accepts_any_decoded_store (j : Json) (s : Store)
    (h : decodeStore j = .ok s) : FSM.Restore j = .ok s := h

/-- C7 amended, witness: Restore applied to the encoding of the
I3-violating store succeeds. -/
theorem restore_accepts_any_decoded_store_witness :
    decodeStore (encodeStore badRestoreStore) = .ok badRestoreStore ∧
    FSM.Restore (encodeStore badRestoreStore) = .ok badRestoreStore :=
  ⟨by rfl, restore_accepts_any_decoded_store (encodeStore badRestoreStore)
    badRestoreStore (by rfl)⟩

theorem validate_ok_iff (cur st : String) :
    ValidatePrintJobStatusTransition cur st = .ok () ↔
      ((cur = Queued ∧ st = Running) ∨ (cur = Queued ∧ st = Canceled) ∨
       (cur = Running ∧ st = Done) ∨ (cur = Running ∧ st = Canceled)) := by
  unfold ValidatePrintJobStatusTransition
  split_ifs with h1 h2 h3 h4 h5 <;>
    simp_all [Queued, Running, Canceled, Done] <;> tauto

/-- C2: an UpdatePrintJob on an existing job succeeds exactly when the
pair of current and proposed status is Queued to Running, Queued to
Canceled, Running to Done or Running to Canceled; every other pair is
rejected with an error, and a job already in Done or Canceled leaves the
store untouched. -/
theorem update_print_job_transition (s : Store) (id st : String) (now : Int)
    (pj : PrintJob) (h : smapLookup s.PrintJobs id = some pj) :
    ((applyUpdatePrintJob s id st now).1.isErr = false ↔
      ((pj.Status = Queued ∧ st = Running) ∨ (pj.Status = Queued ∧ st = Canceled) ∨
       (pj.Status = Running ∧ st = Done) ∨ (pj.Status = Running ∧ st = Canceled)))
    ∧ ((pj.Status = Done ∨ pj.Status = Canceled) →
        (applyUpdatePrintJob s id st now).2 = s) := by
  constructor
  · rw [← validate_ok_iff]
    unfold applyUpdatePrintJob
    rw [h]
    rcases hv : ValidatePrintJobStatusTransition pj.Status st with e | u
    · simp [hv, ApplyResult.isErr]
    · simp [hv, ApplyResult.isErr]
  · intro hterm
    unfold applyUpdatePrintJob
    have hv : ∃ e, ValidatePrintJobStatusTransition pj.Status st = .error e := by
      rcases hterm with h1 | h1 <;>
        simp [ValidatePrintJobStatusTransition, h1, Queued, Running, Done, Canceled]
    obtain ⟨e, hv⟩ := hv
    simp only [h, hv]

/-- C2 witness: a concrete Done job rejects a move back to Queued and the
store is untouched. -/
theorem update_print_job_transition_witness :
    ((applyUpdatePrintJob doneJobStore "j1" Queued 7).1.isErr = false ↔
      ((doneJob.Status = Queued ∧ Queued = Running) ∨
       (doneJob.Status = Queued ∧ Queued = Canceled) ∨
       (doneJob.Status = Running ∧ Queued = Done) ∨
       (doneJob.Status = Running ∧ Queued = Canceled)))
    ∧ ((doneJob.Status = Done ∨ doneJob.Status = Canceled) →
        (applyUpdatePrintJob doneJobStore "j1" Queued 7).2 = doneJobStore) :=
  update_print_job_transition doneJobStore "j1" Queued 7 doneJob (by rfl)

theorem applyCreatePrinter_err_frame (s : Store) (d : Json) (e : String)
    (h : (applyCreatePrinter s d).1 = .err e) : (applyCreatePrinter s d).2 = s := by
  unfold applyCreatePrinter at h ⊢
  rcases hd : decodePrinter d with e' | p
  · simp [hd]
  · by_cases hid : p.ID = "" <;> simp [hd, hid] at h

theorem applyCreateFilament_err_frame (s : Store) (d : Json) (e : String)
    (h : (applyCreateFilament s d).1 = .err e) : (applyCreateFilament s d).2 = s := by
  unfold applyCreateFilament at h ⊢
  rcases hd : decodeFilament d with e' | f
  · simp [hd]
  · by_cases hid : f.ID = "" <;> simp [hd, hid] at h

theorem applyCreatePrintJob_err_frame (s : Store) (d : Json) (now : Int)
    (e : String) (h : (applyCreatePrintJob s d now).1 = .err e) :
    (applyCreatePrintJob s d now).2 = s := by
  unfold applyCreatePrintJob at h ⊢
  rcases hd : decodePrintJob d with e' | pj
  · simp [hd]
  · rcases hp : smapLookup s.Printers pj.PrinterID with _ | p
    · simp [hd, hp]
    · rcases hf : smapLookup s.Filaments pj.FilamentID with _ | f
      · simp [hd, hp, hf]
      · rcases hc : s.CheckFilamentAvailability pj.FilamentID pj.PrintWeightInGrams
            with e'' | u
        · simp [hd, hp, hf, hc]
        · by_cases hid : pj.ID = "" <;> simp [hd, hp, hf, hc, hid] at h

theorem applyUpdatePrintJob_err_frame (s : Store) (id st : String) (now : Int)
    (e : String) (h : (applyUpdatePrintJob s id st now).1 = .err e) :
    (applyUpdatePrintJob s id st now).2 = s := by
  unfold applyUpdatePrintJob at h ⊢
  rcases hj : smapLookup s.PrintJobs id with _ | pj
  · simp [hj]
  · rcases hv : ValidatePrintJobStatusTransition pj.Status st with e' | u
    · simp [hj, hv]
    · by_cases hdn : st = Done
      · subst hdn
        simp [hj, hv] at h
      · simp [hj, hv, hdn] at h

/-- C10: Apply is atomic on error: whenever it returns an error value, the
store after Apply is the store before, whatever the error was. -/
theorem apply_error_is_atomic (s : Store) (cmd : Command) (now : Int) (e : String)
    (h : (FSM.Apply s cmd now).1 = .err e) : (FSM.Apply s cmd now).2 = s := by
  unfold FSM.Apply at h ⊢
  split_ifs at h ⊢ with h1 h2 h3 h4
  · exact applyCreatePrinter_err_frame s cmd.data e h
  · exact applyCreateFilament_err_frame s cmd.data e h
  · exact applyCreatePrintJob_err_frame s cmd.data now e h
  · exact applyUpdatePrintJob_err_frame s cmd.id cmd.status now e h
  · rfl

/-- C10 witness: an unknown command type errors and leaves the fresh store
untouched. -/
theorem apply_error_is_atomic_witness :
    (FSM.Apply NewStore unknownCmd 0).1 = .err "unknown command type: NOPE" ∧
    (FSM.Apply NewStore unknownCmd 0).2 = NewStore :=
  ⟨by rfl, apply_error_is_atomic NewStore unknownCmd 0
    "unknown command type: NOPE" (by rfl)⟩

/-- C1: when the printer and the filament of a decoded CreatePrintJob
payload exist, the job is inserted if and only if the available filament
weight (remaining minus the active-job usage) covers the print weight;
otherwise Apply returns an error and the store is unchanged. -/
theorem create_print_job_budget (s : Store) (data : Json) (now : Int)
    (pj : PrintJob) (fl : Filament)
    (hd : decodePrintJob data = .ok pj)
    (hp : (smapLookup s.Printers pj.PrinterID).isSome = true)
    (hf : smapLookup s.Filaments pj.FilamentID = some fl) :
    (pj.PrintWeightInGrams ≤
        fl.RemainingWeightInGrams - activeWeight s.PrintJobs pj.FilamentID →
      (applyCreatePrintJob s data now).1 = .printJob (storedPrintJob s pj now) ∧
      smapLookup (applyCreatePrintJob s data now).2.PrintJobs
          (storedPrintJob s pj now).ID = some (storedPrintJob s pj now)) ∧
    (fl.RemainingWeightInGrams - activeWeight s.PrintJobs pj.FilamentID <
        pj.PrintWeightInGrams →
      (applyCreatePrintJob s data now).1.isErr = true ∧
      (applyCreatePrintJob s data now).2 = s) := by
  obtain ⟨p, hp'⟩ := Option.isSome_iff_exists.mp hp
  constructor
  · intro hav
    have hnl : ¬ (fl.RemainingWeightInGrams -
        activeWeight s.PrintJobs pj.FilamentID < pj.PrintWeightInGrams) := by omega
    unfold applyCreatePrintJob
    simp only [hd, hp', hf, Store.CheckFilamentAvailability, hnl, if_false, ite_false]
    by_cases hid : pj.ID = "" <;>
      simp [hid, storedPrintJob, Store.GetNextID, smapLookup_insert]
  · intro hav
    unfold applyCreatePrintJob
    simp [hd, hp', hf, Store.CheckFilamentAvailability, hav, ApplyResult.isErr]

/-- C1 witness: a job of weight 10 against a filament with 100 grams free
is inserted with its id allocated, status Queued and both timestamps set. -/
theorem create_print_job_budget_witness :
    (applyCreatePrintJob clockStore clockCmd.data 3).1 =
      .printJob (storedPrintJob clockStore clockCmdJob 3) ∧
    smapLookup (applyCreatePrintJob clockStore clockCmd.data 3).2.PrintJobs
        (storedPrintJob clockStore clockCmdJob 3).ID =
      some (storedPrintJob clockStore clockCmdJob 3) :=
  (create_print_job_budget clockStore clockCmd.data 3 clockCmdJob clockFilament
    (by rfl) (by rfl) (by rfl)).1 (by decide)

theorem smapLookup_insert_self {α : Type} (m : SMap α) (k : String) (v : α) :
    smapLookup (smapInsert m k v) k = some v := by
  rw [smapLookup_insert, if_pos rfl]

theorem smapLookup_insert_ne {α : Type} (m : SMap α) (k k' : String) (v : α)
    (h : k ≠ k') : smapLookup (smapInsert m k v) k' = smapLookup m k' := by
  rw [smapLookup_insert, if_neg h]

theorem clamp_eq_max (a : Int) : (if a < 0 then 0 else a) = max 0 a := by
  rcases le_or_lt 0 a with h | h
  · rw [if_neg (not_lt.mpr h), max_eq_right h]
  · rw [if_pos h, max_eq_left h.le]

/-- C6: a valid move of an existing job to Done subtracts the print weight
from its filament, clamping at zero, and refreshes the job timestamp; any
successful move to a status other than Done leaves every filament as it was. -/
theorem update_done_subtracts_weight (s : Store) (id : String) (now : Int) :
    (∀ pj fl, smapLookup s.PrintJobs id = some pj → pj.Status = Running →
      smapLookup s.Filaments pj.FilamentID = some fl →
      smapLookup (applyUpdatePrintJob s id Done now).2.Filaments pj.FilamentID =
        some { fl with RemainingWeightInGrams :=
                 (max 0 (fl.RemainingWeightInGrams - pj.PrintWeightInGrams)) } ∧
      smapLookup (applyUpdatePrintJob s id Done now).2.PrintJobs id =
        some { pj with Status := Done, UpdatedAt := now })
    ∧ (∀ st, st ≠ Done → (applyUpdatePrintJob s id st now).1.isErr = false →
        (applyUpdatePrintJob s id st now).2.Filaments = s.Filaments) := by
  constructor
  · intro pj fl hj hrun hf
    have hv : ValidatePrintJobStatusTransition pj.Status Done = .ok () := by
      simp [ValidatePrintJobStatusTransition, hrun, Running, Queued, Done, Canceled]
    unfold applyUpdatePrintJob
    simp only [hj, hv, if_pos rfl, hf, reduceIte, Option.getD_some]
    constructor
    · rw [smapLookup_insert_self, clamp_eq_max]
    · rw [smapLookup_insert_self]
  · intro st hst hsucc
    unfold applyUpdatePrintJob at hsucc ⊢
    rcases hj : smapLookup s.PrintJobs id with _ | pj
    · simp [hj, ApplyResult.isErr] at hsucc
    · rcases hv : ValidatePrintJobStatusTransition pj.Status st with e | u
      · simp [hj, hv, ApplyResult.isErr] at hsucc
      · simp [hj, hv, hst]

/-- C6 witness: moving the running job to Done leaves the filament at
100 minus 30 is 70 grams; canceling it instead leaves the filaments untouched. -/
theorem update_done_subtracts_weight_witness :
    (smapLookup (applyUpdatePrintJob runningJobStore "j1" Done 9).2.Filaments
        runningJob.FilamentID =
      some { runningJobFilament with RemainingWeightInGrams :=
               (max 0 (runningJobFilament.RemainingWeightInGrams -
                 runningJob.PrintWeightInGrams)) } ∧
     smapLookup (applyUpdatePrintJob runningJobStore "j1" Done 9).2.PrintJobs "j1" =
       some { runningJob with Status := Done, UpdatedAt := 9 }) ∧
    (applyUpdatePrintJob runningJobStore "j1" Canceled 9).2.Filaments =
      runningJobStore.Filaments :=
  ⟨(update_done_subtracts_weight runningJobStore "j1" 9).1 runningJob
      runningJobFilament (by rfl) (by rfl) (by rfl),
   (update_done_subtracts_weight runningJobStore "j1" 9).2 Canceled
      (by decide) (by rfl)⟩

theorem applyCreateFilament_printers_frame (s : Store) (d : Json) :
    (applyCreateFilament s d).2.Printers = s.Printers := by
  unfold applyCreateFilament
  rcases hd : decodeFilament d with e | f <;> simp only [hd]
  by_cases hid : f.ID = "" <;> simp [hid, Store.GetNextID]

theorem applyCreatePrintJob_printers_frame (s : Store) (d : Json) (now : Int) :
    (applyCreatePrintJob s d now).2.Printers = s.Printers := by
  unfold applyCreatePrintJob
  rcases hd : decodePrintJob d with e | pj <;> simp only [hd]
  rcases hp : smapLookup s.Printers pj.PrinterID with _ | p <;> simp only [hp]
  rcases hf : smapLookup s.Filaments pj.FilamentID with _ | f <;> simp only [hf]
  rcases hc : s.CheckFilamentAvailability pj.FilamentID pj.PrintWeightInGrams
      with e' | u <;> simp only [hc]
  by_cases hid : pj.ID = "" <;> simp [hid, Store.GetNextID]

theorem applyUpdatePrintJob_printers_frame (s : Store) (id st : String) (now : Int) :
    (applyUpdatePrintJob s id st now).2.Printers = s.Printers := by
  unfold applyUpdatePrintJob
  rcases hj : smapLookup s.PrintJobs id with _ | pj <;> simp only [hj]
  rcases hv : ValidatePrintJobStatusTransition pj.Status st with e | u <;>
    simp only [hv]
  by_cases hdn : st = Done <;> simp [hdn]

theorem applyCreatePrinter_filaments_frame (s : Store) (d : Json) :
    (applyCreatePrinter s d).2.Filaments = s.Filaments := by
  unfold applyCreatePrinter
  rcases hd : decodePrinter d with e | p <;> simp only [hd]
  by_cases hid : p.ID = "" <;> simp [hid, Store.GetNextID]

theorem applyCreatePrintJob_filaments_frame (s : Store) (d : Json) (now : Int) :
    (applyCreatePrintJob s d now).2.Filaments = s.Filaments := by
  unfold applyCreatePrintJob
  rcases hd : decodePrintJob d with e | pj <;> simp only [hd]
  rcases hp : smapLookup s.Printers pj.PrinterID with _ | p <;> simp only [hp]
  rcases hf : smapLookup s.Filaments pj.FilamentID with _ | f <;> simp only [hf]
  rcases hc : s.CheckFilamentAvailability pj.FilamentID pj.PrintWeightInGrams
      with e' | u <;> simp only [hc]
  by_cases hid : pj.ID = "" <;> simp [hid, Store.GetNextID]

theorem applyUpdatePrintJob_filaments_isSome (s : Store) (id st : String)
    (now : Int) (i : String) (h : (smapLookup s.Filaments i).isSome = true) :
    (smapLookup (applyUpdatePrintJob s id st now).2.Filaments i).isSome = true := by
  unfold applyUpdatePrintJob
  rcases hj : smapLookup s.PrintJobs id with _ | pj <;> simp only [hj]
  · exact h
  rcases hv : ValidatePrintJobStatusTransition pj.Status st with e | u <;>
    simp only [hv]
  · exact h
  by_cases hdn : st = Done <;> simp only [hdn, reduceIte]
  · by_cases hfi : pj.FilamentID = i
    · subst hfi
      simp [smapLookup_insert_self]
    · simp only [smapLookup_insert_ne _ _ _ _ hfi]
      exact h
  · exact h

theorem smapLookup_insert_isSome {α : Type} (m : SMap α) (k k' : String) (v : α)
    (h : (smapLookup m k').isSome = true) :
    (smapLookup (smapInsert m k v) k').isSome = true := by
  by_cases hk : k = k'
  · subst hk
    rw [smapLookup_insert_self]
    rfl
  · rw [smapLookup_insert_ne _ _ _ _ hk]
    exact h

/-- C9 amended: a printer present in the store is still present after any
applied command, and its fields are unchanged unless the command is a
CreatePrinter that stores under the same id (the code overwrites in that
case); filament entries are likewise never removed. -/
theorem printers_persist (s : Store) (cmd : Command) (now : Int) (i : String) :
    (∀ p, smapLookup s.Printers i = some p →
      (smapLookup (FSM.Apply s cmd now).2.Printers i).isSome = true ∧
      ((cmd.type = CreatePrinterType → createPrinterStoredID s cmd ≠ some i) →
        smapLookup (FSM.Apply s cmd now).2.Printers i = some p))
    ∧ ((smapLookup s.Filaments i).isSome = true →
        (smapLookup (FSM.Apply s cmd now).2.Filaments i).isSome = true) := by
  unfold FSM.Apply
  split_ifs with h1 h2 h3 h4
  · -- CreatePrinter
    constructor
    · intro p hp
      constructor
      · unfold applyCreatePrinter
        rcases hd : decodePrinter cmd.data with e | pr <;> simp only [hd]
        · simp [hp]
        · by_cases hid : pr.ID = ""
          · simp only [hid, reduceIte, Store.GetNextID]
            refine smapLookup_insert_isSome _ _ _ _ ?_
            rw [hp]
            rfl
          · simp only [hid, reduceIte]
            refine smapLookup_insert_isSome _ _ _ _ ?_
            rw [hp]
            rfl
      · intro hne
        have hne' := hne h1
        unfold createPrinterStoredID at hne'
        unfold applyCreatePrinter
        rcases hd : decodePrinter cmd.data with e | pr <;> simp only [hd] at hne' ⊢
        · exact hp
        · have hsid : (if pr.ID = "" then (s.GetNextID "printer").1 else pr.ID) ≠ i :=
            fun hcon => hne' (by rw [hcon])
          by_cases hid : pr.ID = "" <;>
            simp only [hid, reduceIte, Store.GetNextID] at hsid ⊢ <;>
            rw [smapLookup_insert_ne _ _ _ _ hsid] <;> exact hp
    · intro hfil
      rw [applyCreatePrinter_filaments_frame]
      exact hfil
  · -- CreateFilament
    constructor
    · intro p hp
      refine ⟨?_, fun _ => ?_⟩ <;> rw [applyCreateFilament_printers_frame]
      · simp [hp]
      · exact hp
    · intro hfil
      unfold applyCreateFilament
      rcases hd : decodeFilament cmd.data with e | f <;> simp only [hd]
      · exact hfil
      · by_cases hid : f.ID = "" <;>
          simp only [hid, reduceIte, Store.GetNextID] <;>
          exact smapLookup_insert_isSome _ _ _ _ hfil
  · -- CreatePrintJob
    constructor
    · intro p hp
      refine ⟨?_, fun _ => ?_⟩ <;> rw [applyCreatePrintJob_printers_frame]
      · simp [hp]
      · exact hp
    · intro hfil
      rw [applyCreatePrintJob_filaments_frame]
      exact hfil
  · -- UpdatePrintJob
    constructor
    · intro p hp
      refine ⟨?_, fun _ => ?_⟩ <;> rw [applyUpdatePrintJob_printers_frame]
      · simp [hp]
      · exact hp
    · intro hfil
      exact applyUpdatePrintJob_filaments_isSome s cmd.id cmd.status now i hfil
  · -- unknown command type
    constructor
    · intro p hp
      exact ⟨by simp [hp], fun _ => hp⟩
    · intro hfil
      exact hfil

/-- C9 counterexample: a CreatePrinter command whose payload reuses an
existing id replaces that printer, changing its company field from A to B,
so printers are not immutable after creation. -/
theorem printers_overwritten_counterexample :
    smapLookup overwriteStore.Printers "p1" =
      some { ID := "p1", Company := "A", Model := "M" } ∧
    smapLookup (FSM.Apply overwriteStore overwriteCmd 0).2.Printers "p1" =
      some { ID := "p1", Company := "B", Model := "M" } ∧
    ({ ID := "p1", Company := "B", Model := "M" } : Printer) ≠
      { ID := "p1", Company := "A", Model := "M" } := by
  refine ⟨by rfl, by rfl, by decide⟩

/-- C9 witness: under a command of unknown type the printer p1 keeps its
fields and the filament f1 stays present. -/
theorem printers_persist_witness :
    (smapLookup (FSM.Apply clockStore unknownCmd 0).2.Printers "p1").isSome = true ∧
    smapLookup (FSM.Apply clockStore unknownCmd 0).2.Printers "p1" =
      some { ID := "p1", Company := "Creality", Model := "Ender 3" } ∧
    (smapLookup (FSM.Apply clockStore unknownCmd 0).2.Filaments "f1").isSome = true :=
  ⟨((printers_persist clockStore unknownCmd 0 "p1").1
      { ID := "p1", Company := "Creality", Model := "Ender 3" } (by rfl)).1,
   ((printers_persist clockStore unknownCmd 0 "p1").1
      { ID := "p1", Company := "Creality", Model := "Ender 3" } (by rfl)).2
      (by intro hc; exact absurd hc (by decide)),
   (printers_persist clockStore unknownCmd 0 "f1").2 (by rfl)⟩

theorem applyCreatePrinter_printjobs_frame (s : Store) (d : Json) :
    (applyCreatePrinter s d).2.PrintJobs = s.PrintJobs := by
  unfold applyCreatePrinter
  rcases hd : decodePrinter d with e | p <;> simp only [hd]
  by_cases hid : p.ID = "" <;> simp [hid, Store.GetNextID]

theorem applyCreateFilament_printjobs_frame (s : Store) (d : Json) :
    (applyCreateFilament s d).2.PrintJobs = s.PrintJobs := by
  unfold applyCreateFilament
  rcases hd : decodeFilament d with e | f <;> simp only [hd]
  by_cases hid : f.ID = "" <;> simp [hid, Store.GetNextID]

theorem weightCore_insert_filament (filaments : SMap Filament)
    (jobs : SMap PrintJob) (key : String) (f : Filament)
    (hinv : WeightCore filaments jobs)
    (hr0 : 0 ≤ f.RemainingWeightInGrams)
    (hr1 : f.RemainingWeightInGrams ≤ f.TotalWeightInGrams) :
    WeightCore (smapInsert filaments key f) jobs := by
  obtain ⟨hf, hj⟩ := hinv
  refine ⟨?_, hj⟩
  intro k fl hfl
  rw [smapLookup_insert] at hfl
  by_cases hk : key = k
  · rw [if_pos hk] at hfl
    injection hfl with hfl
    subst hfl
    exact ⟨hr0, hr1⟩
  · rw [if_neg hk] at hfl
    exact hf k fl hfl

theorem weightCore_insert_job (filaments : SMap Filament)
    (jobs : SMap PrintJob) (key : String) (pj : PrintJob)
    (hinv : WeightCore filaments jobs) (hw : 0 ≤ pj.PrintWeightInGrams) :
    WeightCore filaments (smapInsert jobs key pj) := by
  obtain ⟨hf, hj⟩ := hinv
  refine ⟨hf, ?_⟩
  intro k q hq
  rw [smapLookup_insert] at hq
  by_cases hk : key = k
  · rw [if_pos hk] at hq
    injection hq with hq
    subst hq
    exact hw
  · rw [if_neg hk] at hq
    exact hj k q hq

theorem weightInv_step (s : Store) (cmd : Command) (now : Int)
    (hs : WeightInv s) (hok : weightStepOK s cmd = true) :
    WeightInv (FSM.Apply s cmd now).2 := by
  unfold FSM.Apply
  split_ifs with h1 h2 h3 h4
  · show WeightCore _ _
    rw [applyCreatePrinter_filaments_frame, applyCreatePrinter_printjobs_frame]
    exact hs
  · unfold weightStepOK at hok
    rw [if_pos h2] at hok
    unfold applyCreateFilament
    rcases hd : decodeFilament cmd.data with e | f <;> simp only [hd]
    · exact hs
    · simp only [hd] at hok
      replace hok := of_decide_eq_true hok
      by_cases hid : f.ID = ""
      · by_cases h0 : f.RemainingWeightInGrams = 0 <;>
          simp only [hid, h0, reduceIte, Store.GetNextID] <;>
          exact weightCore_insert_filament _ _ _ _ hs
            (by simpa [defaultedRemaining, h0] using hok.1)
            (by simpa [defaultedRemaining, h0] using hok.2)
      · by_cases h0 : f.RemainingWeightInGrams = 0 <;>
          simp only [hid, h0, reduceIte, Store.GetNextID] <;>
          exact weightCore_insert_filament _ _ _ _ hs
            (by simpa [defaultedRemaining, h0] using hok.1)
            (by simpa [defaultedRemaining, h0] using hok.2)
  · unfold weightStepOK at hok
    rw [if_neg h2, if_pos h3] at hok
    unfold applyCreatePrintJob
    rcases hd : decodePrintJob cmd.data with e | pj <;> simp only [hd]
    · exact hs
    rcases hp : smapLookup s.Printers pj.PrinterID with _ | p <;> simp only [hp]
    · exact hs
    rcases hf : smapLookup s.Filaments pj.FilamentID with _ | flx <;> simp only [hf]
    · exact hs
    rcases hc : s.CheckFilamentAvailability pj.FilamentID pj.PrintWeightInGrams
        with e' | u <;> simp only [hc]
    · exact hs
    simp only [hd] at hok
    replace hok := of_decide_eq_true hok
    by_cases hid : pj.ID = "" <;>
      simp only [hid, reduceIte, Store.GetNextID] <;>
      exact weightCore_insert_job _ _ _ _ hs hok
  · unfold applyUpdatePrintJob
    rcases hj : smapLookup s.PrintJobs cmd.id with _ | pj <;> simp only [hj]
    · exact hs
    rcases hv : ValidatePrintJobStatusTransition pj.Status cmd.status with e | u <;>
      simp only [hv]
    · exact hs
    have hw : 0 ≤ pj.PrintWeightInGrams := hs.2 cmd.id pj hj
    by_cases hdn : cmd.status = Done
    · simp only [hdn, reduceIte]
      refine weightCore_insert_job _ _ _ _ ?_ hw
      rcases hfo : smapLookup s.Filaments pj.FilamentID with _ | flOld
      · simp only [hfo, Option.getD_none]
        refine weightCore_insert_filament _ _ _ _ hs ?_ ?_
        · show (0 : Int) ≤ if 0 - pj.PrintWeightInGrams < 0 then 0
            else 0 - pj.PrintWeightInGrams
          split <;> omega
        · show (if 0 - pj.PrintWeightInGrams < 0 then 0
            else 0 - pj.PrintWeightInGrams) ≤ (0 : Int)
          split <;> omega
      · simp only [hfo, Option.getD_some]
        obtain ⟨hb0, hb1⟩ := hs.1 pj.FilamentID flOld hfo
        refine weightCore_insert_filament _ _ _ _ hs ?_ ?_
        · show (0 : Int) ≤ if flOld.RemainingWeightInGrams - pj.PrintWeightInGrams < 0
            then 0 else flOld.RemainingWeightInGrams - pj.PrintWeightInGrams
          split <;> omega
        · show (if flOld.RemainingWeightInGrams - pj.PrintWeightInGrams < 0
            then 0 else flOld.RemainingWeightInGrams - pj.PrintWeightInGrams) ≤
            flOld.TotalWeightInGrams
          split <;> omega
    · simp only [if_neg hdn]
      exact weightCore_insert_job _ _ _ _ hs hw
  · exact hs

theorem weightInv_newStore : WeightInv NewStore := by
  constructor <;> intro k x hx <;> simp [smapLookup, NewStore] at hx

theorem weightInv_trace (s : Store) (steps : List (Command × Int))
    (hs : WeightInv s) (hok : weightTraceOK s steps = true) :
    WeightInv (applyTrace s steps) := by
  induction steps generalizing s with
  | nil => exact hs
  | cons p rest ih =>
      obtain ⟨cmd, now⟩ := p
      simp only [weightTraceOK, Bool.and_eq_true] at hok
      simp only [applyTrace]
      exact ih _ (weightInv_step s cmd now hs hok.1) hok.2

/-- C8 amended: along every command trace from the initial empty store in
which each CreateFilament payload lands between zero and its total weight
after the zero-remaining default, and each CreatePrintJob payload carries a
nonnegative weight, every filament satisfies
zero less-or-equal remaining less-or-equal total.  Without those payload
conditions the code stores out-of-range filaments verbatim. -/
theorem filament_weight_bounds (steps : List (Command × Int))
    (hok : weightTraceOK NewStore steps = true) (k : String) (fl : Filament)
    (hfl : smapLookup (applyTrace NewStore steps).Filaments k = some fl) :
    0 ≤ fl.RemainingWeightInGrams ∧
    fl.RemainingWeightInGrams ≤ fl.TotalWeightInGrams :=
  (weightInv_trace NewStore steps weightInv_newStore hok).1 k fl hfl

/-- C8 witness: after one defaulted CreateFilament the stored filament
sits at 100 of 100 grams, within bounds. -/
theorem filament_weight_bounds_witness :
    weightTraceOK NewStore [(filamentDefaultCmd, 0)] = true ∧
    smapLookup (applyTrace NewStore [(filamentDefaultCmd, 0)]).Filaments "1" =
      some { ID := "1", FType := "PLA", Color := "red",
             TotalWeightInGrams := 100, RemainingWeightInGrams := 100 } ∧
    (0 ≤ ({ ID := "1", FType := "PLA", Color := "red",
            TotalWeightInGrams := 100,
            RemainingWeightInGrams := 100 } : Filament).RemainingWeightInGrams ∧
     ({ ID := "1", FType := "PLA", Color := "red", TotalWeightInGrams := 100,
        RemainingWeightInGrams := 100 } : Filament).RemainingWeightInGrams ≤
       ({ ID := "1", FType := "PLA", Color := "red", TotalWeightInGrams := 100,
          RemainingWeightInGrams := 100 } : Filament).TotalWeightInGrams) :=
  ⟨by rfl, by rfl,
   filament_weight_bounds [(filamentDefaultCmd, 0)] (by rfl) "1" _ (by rfl)⟩

/-- C8 counterexample: one CreateFilament command applied to the initial
store yields a filament with remaining weight minus five, violating
the claimed bound zero less-or-equal remaining. -/
theorem filament_weight_counterexample :
    smapLookup (applyTrace NewStore [(negativeFilamentCmd, 0)]).Filaments "f1" =
      some { ID := "f1", FType := "PLA", Color := "red",
             TotalWeightInGrams := 100, RemainingWeightInGrams := -5 } ∧
    ((-5 : Int) < 0) :=
  ⟨by rfl, by decide⟩

theorem budgetCore_insert_filament (filaments : SMap Filament)
    (jobs : SMap PrintJob) (key : String) (f : Filament)
    (hinv : BudgetCore filaments jobs)
    (hkey : f.ID = key)
    (hfresh : smapLookup filaments key = none)
    (hrem : 0 ≤ f.RemainingWeightInGrams) :
    BudgetCore (smapInsert filaments key f) jobs := by
  subst hkey
  obtain ⟨hw, href, hbud⟩ := hinv
  refine ⟨hw, ?_, ?_⟩
  · intro p hp
    exact smapLookup_insert_isSome _ _ _ _ (href p hp)
  · intro k fl hfl
    rw [smapLookup_insert] at hfl
    by_cases hk : f.ID = k
    · rw [if_pos hk] at hfl
      injection hfl with hfl
      subst hfl
      refine ⟨hk, ?_⟩
      have hz : activeWeight jobs k = 0 := by
        apply activeWeight_eq_zero
        intro p hp hcon
        have hsome := href p hp
        rw [hcon, ← hk, hfresh] at hsome
        exact Bool.noConfusion hsome
      rw [hz]
      exact hrem
    · rw [if_neg hk] at hfl
      exact hbud k fl hfl

theorem budgetCore_insert_queued_job (filaments : SMap Filament)
    (jobs : SMap PrintJob) (key : String) (pj : PrintJob) (flx : Filament)
    (hinv : BudgetCore filaments jobs)
    (hw0 : 0 ≤ pj.PrintWeightInGrams)
    (hq : pj.Status = Queued)
    (hflx : smapLookup filaments pj.FilamentID = some flx)
    (hav : activeWeight jobs pj.FilamentID + pj.PrintWeightInGrams ≤
      flx.RemainingWeightInGrams) :
    BudgetCore filaments (smapInsert jobs key pj) := by
  obtain ⟨hw, href, hbud⟩ := hinv
  have hold : ∀ fid, 0 ≤ (smapLookup jobs key).elim 0 (activeContribution fid) := by
    intro fid
    rcases ho : smapLookup jobs key with _ | old
    · simp
    · simp only [Option.elim_some]
      have h0 : 0 ≤ old.PrintWeightInGrams :=
        hw (key, old) (smapLookup_mem _ _ _ ho)
      unfold activeContribution
      split <;> omega
  refine ⟨?_, ?_, ?_⟩
  · intro p hp
    rcases mem_smapInsert _ _ _ _ hp with h | h
    · rw [h]
      exact hw0
    · exact hw p h
  · intro p hp
    rcases mem_smapInsert _ _ _ _ hp with h | h
    · rw [h]
      show (smapLookup filaments pj.FilamentID).isSome = true
      rw [hflx]
      rfl
    · exact href p h
  · intro k fl hfl
    obtain ⟨hid2, hb⟩ := hbud k fl hfl
    refine ⟨hid2, ?_⟩
    have hins := activeWeight_smapInsert jobs key pj k
    have h0 := hold k
    by_cases hk : pj.FilamentID = k
    · have hc : activeContribution k pj = pj.PrintWeightInGrams := by
        unfold activeContribution
        rw [if_pos ⟨hk, Or.inl hq⟩]
      have hfe : flx = fl := by
        rw [hk] at hflx
        exact Option.some.inj (hflx.symm.trans hfl)
      rw [hk] at hav
      rw [hfe] at hav
      omega
    · have hc : activeContribution k pj = 0 := by
        unfold activeContribution
        rw [if_neg (fun hcon => hk hcon.1)]
      omega

theorem budgetCore_replace_job (filaments : SMap Filament)
    (jobs : SMap PrintJob) (id : String) (pj pj' : PrintJob)
    (hinv : BudgetCore filaments jobs)
    (hold : smapLookup jobs id = some pj)
    (hw' : 0 ≤ pj'.PrintWeightInGrams)
    (hfid : pj'.FilamentID = pj.FilamentID)
    (hc : ∀ k, activeContribution k pj' ≤ activeContribution k pj) :
    BudgetCore filaments (smapInsert jobs id pj') := by
  obtain ⟨hw, href, hbud⟩ := hinv
  refine ⟨?_, ?_, ?_⟩
  · intro p hp
    rcases mem_smapInsert _ _ _ _ hp with h | h
    · rw [h]
      exact hw'
    · exact hw p h
  · intro p hp
    rcases mem_smapInsert _ _ _ _ hp with h | h
    · rw [h]
      show (smapLookup filaments pj'.FilamentID).isSome = true
      rw [hfid]
      exact href (id, pj) (smapLookup_mem _ _ _ hold)
    · exact href p h
  · intro k fl hfl
    obtain ⟨hid2, hb⟩ := hbud k fl hfl
    refine ⟨hid2, ?_⟩
    have hins := activeWeight_smapInsert jobs id pj' k
    rw [hold] at hins
    simp only [Option.elim_some] at hins
    have hck := hc k
    omega

theorem budgetCore_done_job (filaments : SMap Filament) (jobs : SMap PrintJob)
    (id : String) (pj : PrintJob) (flOld : Filament) (now : Int)
    (hinv : BudgetCore filaments jobs)
    (hold : smapLookup jobs id = some pj)
    (hrun : pj.Status = Running)
    (hfl : smapLookup filaments pj.FilamentID = some flOld) :
    BudgetCore
      (smapInsert filaments pj.FilamentID
        { flOld with RemainingWeightInGrams :=
            if flOld.RemainingWeightInGrams - pj.PrintWeightInGrams < 0 then 0
            else flOld.RemainingWeightInGrams - pj.PrintWeightInGrams })
      (smapInsert jobs id { pj with Status := Done, UpdatedAt := now }) := by
  obtain ⟨hw, href, hbud⟩ := hinv
  have hwpj : 0 ≤ pj.PrintWeightInGrams := hw (id, pj) (smapLookup_mem _ _ _ hold)
  refine ⟨?_, ?_, ?_⟩
  · intro p hp
    rcases mem_smapInsert _ _ _ _ hp with h | h
    · rw [h]
      exact hwpj
    · exact hw p h
  · intro p hp
    rcases mem_smapInsert _ _ _ _ hp with h | h
    · rw [h]
      show (smapLookup (smapInsert filaments pj.FilamentID _) pj.FilamentID).isSome
        = true
      rw [smapLookup_insert_self]
      rfl
    · exact smapLookup_insert_isSome _ _ _ _ (href p h)
  · intro k fl hfl2
    rw [smapLookup_insert] at hfl2
    have hins := activeWeight_smapInsert jobs id
      ({ pj with Status := Done, UpdatedAt := now }) k
    rw [hold] at hins
    simp only [Option.elim_some] at hins
    have hcDone : activeContribution k { pj with Status := Done, UpdatedAt := now }
        = 0 := by
      unfold activeContribution
      rw [if_neg (fun hcon => by
        rcases hcon.2 with h' | h' <;> simp [Done, Queued, Running] at h')]
    by_cases hk : pj.FilamentID = k
    · rw [if_pos hk] at hfl2
      injection hfl2 with hfl2
      subst hfl2
      obtain ⟨hidO, hbO⟩ := hbud k flOld (hk ▸ hfl)
      refine ⟨hidO, ?_⟩
      have hcR : activeContribution k pj = pj.PrintWeightInGrams := by
        unfold activeContribution
        rw [if_pos ⟨hk, Or.inr hrun⟩]
      show activeWeight (smapInsert jobs id _) k ≤
        (if flOld.RemainingWeightInGrams - pj.PrintWeightInGrams < 0 then 0
         else flOld.RemainingWeightInGrams - pj.PrintWeightInGrams)
      split <;> omega
    · rw [if_neg hk] at hfl2
      obtain ⟨hid2, hb2⟩ := hbud k fl hfl2
      refine ⟨hid2, ?_⟩
      have hcR : activeContribution k pj = 0 := by
        unfold activeContribution
        rw [if_neg (fun hcon => hk hcon.1)]
      omega

theorem budgetInv_step (s : Store) (cmd : Command) (now : Int)
    (hs : BudgetInv s) (hok : budgetStepOK s cmd = true) :
    BudgetInv (FSM.Apply s cmd now).2 := by
  unfold FSM.Apply
  split_ifs with h1 h2 h3 h4
  · show BudgetCore _ _
    rw [applyCreatePrinter_filaments_frame, applyCreatePrinter_printjobs_frame]
    exact hs
  · unfold budgetStepOK at hok
    rw [if_pos h2] at hok
    unfold applyCreateFilament
    rcases hd : decodeFilament cmd.data with e | f <;> simp only [hd]
    · exact hs
    · simp only [hd] at hok
      replace hok := of_decide_eq_true hok
      by_cases hid : f.ID = ""
      · simp only [hid, reduceIte] at hok
        by_cases h0 : f.RemainingWeightInGrams = 0
        · simp only [hid, h0, reduceIte, Store.GetNextID]
          show BudgetCore _ _
          refine budgetCore_insert_filament _ _ _ _ hs rfl ?_ ?_
          · exact hok.1
          · simpa [defaultedRemaining, h0] using hok.2
        · simp only [hid, h0, reduceIte, Store.GetNextID]
          show BudgetCore _ _
          refine budgetCore_insert_filament _ _ _ _ hs rfl ?_ ?_
          · exact hok.1
          · simpa [defaultedRemaining, h0] using hok.2
      · simp only [hid, reduceIte] at hok
        by_cases h0 : f.RemainingWeightInGrams = 0
        · simp only [hid, h0, reduceIte]
          show BudgetCore _ _
          refine budgetCore_insert_filament _ _ _ _ hs rfl ?_ ?_
          · exact hok.1
          · simpa [defaultedRemaining, h0] using hok.2
        · simp only [hid, h0, reduceIte]
          show BudgetCore _ _
          refine budgetCore_insert_filament _ _ _ _ hs rfl ?_ ?_
          · exact hok.1
          · simpa [defaultedRemaining, h0] using hok.2
  · unfold budgetStepOK at hok
    rw [if_neg h2, if_pos h3] at hok
    unfold applyCreatePrintJob
    rcases hd : decodePrintJob cmd.data with e | pj <;> simp only [hd]
    · exact hs
    rcases hp : smapLookup s.Printers pj.PrinterID with _ | p <;> simp only [hp]
    · exact hs
    rcases hf : smapLookup s.Filaments pj.FilamentID with _ | flx <;> simp only [hf]
    · exact hs
    rcases hc : s.CheckFilamentAvailability pj.FilamentID pj.PrintWeightInGrams
        with e' | u <;> simp only [hc]
    · exact hs
    simp only [hd] at hok
    replace hok := of_decide_eq_true hok
    have hav : activeWeight s.PrintJobs pj.FilamentID + pj.PrintWeightInGrams ≤
        flx.RemainingWeightInGrams := by
      unfold Store.CheckFilamentAvailability at hc
      simp only [hf] at hc
      by_cases hlt : flx.RemainingWeightInGrams -
          activeWeight s.PrintJobs pj.FilamentID < pj.PrintWeightInGrams
      · rw [if_pos hlt] at hc
        exact Except.noConfusion hc
      · omega
    by_cases hid : pj.ID = "" <;>
      simp only [hid, reduceIte, Store.GetNextID] <;>
      exact budgetCore_insert_queued_job _ _ _ _ flx hs hok rfl hf hav
  · unfold applyUpdatePrintJob
    rcases hj : smapLookup s.PrintJobs cmd.id with _ | pj <;> simp only [hj]
    · exact hs
    rcases hv : ValidatePrintJobStatusTransition pj.Status cmd.status with e | u <;>
      simp only [hv]
    · exact hs
    have hwpj : 0 ≤ pj.PrintWeightInGrams :=
      hs.1 (cmd.id, pj) (smapLookup_mem _ _ _ hj)
    have hpair := (validate_ok_iff pj.Status cmd.status).mp hv
    have hact : pj.Status = Queued ∨ pj.Status = Running := by
      rcases hpair with ⟨ha, _⟩ | ⟨ha, _⟩ | ⟨ha, _⟩ | ⟨ha, _⟩
      · exact Or.inl ha
      · exact Or.inl ha
      · exact Or.inr ha
      · exact Or.inr ha
    by_cases hdn : cmd.status = Done
    · have hrun : pj.Status = Running := by
        rcases hpair with ⟨_, hb⟩ | ⟨_, hb⟩ | ⟨ha, _⟩ | ⟨_, hb⟩
        · rw [hdn] at hb
          simp [Done, Running] at hb
        · rw [hdn] at hb
          simp [Done, Canceled] at hb
        · exact ha
        · rw [hdn] at hb
          simp [Done, Canceled] at hb
      obtain ⟨flOld, hfo⟩ := Option.isSome_iff_exists.mp
        (hs.2.1 (cmd.id, pj) (smapLookup_mem _ _ _ hj))
      simp only [hdn, reduceIte, hfo, Option.getD_some]
      exact budgetCore_done_job _ _ _ _ _ now hs hj hrun hfo
    · simp only [if_neg hdn]
      refine budgetCore_replace_job _ _ _ pj _ hs hj hwpj rfl ?_
      intro k
      unfold activeContribution
      dsimp only
      by_cases hfk : pj.FilamentID = k
      · by_cases hact' : cmd.status = Queued ∨ cmd.status = Running
        · rw [if_pos ⟨hfk, hact'⟩, if_pos ⟨hfk, hact⟩]
        · rw [if_neg (fun hcon => hact' hcon.2), if_pos ⟨hfk, hact⟩]
          exact hwpj
      · rw [if_neg (fun hcon => hfk hcon.1), if_neg (fun hcon => hfk hcon.1)]
  · exact hs

theorem budgetInv_newStore : BudgetInv NewStore := by
  refine ⟨?_, ?_, ?_⟩
  · intro p hp
    simp [NewStore] at hp
  · intro p hp
    simp [NewStore] at hp
  · intro k fl hfl
    simp [NewStore, smapLookup] at hfl

theorem budgetInv_trace (s : Store) (steps : List (Command × Int))
    (hs : BudgetInv s) (hok : budgetTraceOK s steps = true) :
    BudgetInv (applyTrace s steps) := by
  induction steps generalizing s with
  | nil => exact hs
  | cons p rest ih =>
      obtain ⟨cmd, now⟩ := p
      simp only [budgetTraceOK, Bool.and_eq_true] at hok
      simp only [applyTrace]
      exact ih _ (budgetInv_step s cmd now hs hok.1) hok.2

/-- C4 amended: along every command trace from the initial empty store in
which each CreateFilament stores under a key not already present with a
nonnegative defaulted remaining weight, and each CreatePrintJob payload
carries a nonnegative weight, every filament covers the total weight of the
Queued and Running jobs that reference it.  Without the freshness condition
a CreateFilament can overwrite a filament that active jobs already draw on,
and without the sign conditions negative payloads break the bound. -/
theorem filament_budget_invariant (steps : List (Command × Int))
    (hok : budgetTraceOK NewStore steps = true) (k : String) (fl : Filament)
    (hfl : smapLookup (applyTrace NewStore steps).Filaments k = some fl) :
    fl.ID = k ∧
    activeWeight (applyTrace NewStore steps).PrintJobs k ≤
      fl.RemainingWeightInGrams :=
  (budgetInv_trace NewStore steps budgetInv_newStore hok).2.2 k fl hfl

/-- C4 witness: after creating a 100 gram filament, a printer and a queued
60 gram job, filament 1 still covers the booked weight. -/
theorem filament_budget_invariant_witness :
    budgetTraceOK NewStore
      [(filamentDefaultCmd, 0), (printerCreateCmd, 0), (jobCreateCmd, 5)] = true ∧
    smapLookup (applyTrace NewStore
      [(filamentDefaultCmd, 0), (printerCreateCmd, 0), (jobCreateCmd, 5)]).Filaments
        "1" =
      some { ID := "1", FType := "PLA", Color := "red",
             TotalWeightInGrams := 100, RemainingWeightInGrams := 100 } ∧
    (({ ID := "1", FType := "PLA", Color := "red", TotalWeightInGrams := 100,
        RemainingWeightInGrams := 100 } : Filament).ID = "1" ∧
      activeWeight (applyTrace NewStore
        [(filamentDefaultCmd, 0), (printerCreateCmd, 0), (jobCreateCmd, 5)]).PrintJobs
          "1" ≤
        ({ ID := "1", FType := "PLA", Color := "red", TotalWeightInGrams := 100,
           RemainingWeightInGrams := 100 } : Filament).RemainingWeightInGrams) :=
  ⟨by rfl, by rfl,
   filament_budget_invariant
     [(filamentDefaultCmd, 0), (printerCreateCmd, 0), (jobCreateCmd, 5)]
     (by rfl) "1" _ (by rfl)⟩

/-- C4 counterexample: re-creating filament f1 with a 10 gram roll while a
queued 60 gram job still references it leaves the active weight above the
remaining weight, so the claimed invariant fails on this command sequence. -/
theorem filament_budget_counterexample :
    smapLookup (applyTrace NewStore
      [(filamentF1Cmd, 0), (printerCreateCmd, 0), (jobOnF1Cmd, 0),
       (filamentF1SmallCmd, 0)]).Filaments "f1" =
      some { ID := "f1", FType := "PLA", Color := "red",
             TotalWeightInGrams := 10, RemainingWeightInGrams := 10 } ∧
    activeWeight (applyTrace NewStore
      [(filamentF1Cmd, 0), (printerCreateCmd, 0), (jobOnF1Cmd, 0),
       (filamentF1SmallCmd, 0)]).PrintJobs "f1" = 60 ∧
    ¬ ((60 : Int) ≤ 10) :=
  ⟨by rfl, by rfl, by decide⟩
